import Mathlib

/-!
Verification development for the landing-page scraping pipeline:
URL resolution, fetch escalation, CSS value extraction, style-token
extraction (colors, button styles, images) and logo disambiguation.
Each definition is a shallow embedding of a function of the repository;
JavaScript string primitives (startsWith, includes, toLowerCase, the
WHATWG URL constructor on http and https URLs) are modelled explicitly
on lists of characters so that everything is executable.
-/

namespace LPG

/-- Character is an ASCII whitespace character, as matched by the regex
class backslash-s for the inputs considered here. -/
def isSpaceChar (c : Char) : Bool :=
  c == ' ' || c == '\t' || c == '\n' || c == '\r'

/-- Model of JavaScript String.prototype.startsWith: the first list is a
prefix of the second, compared character by character. -/
def isPreL : List Char → List Char → Bool
  | [], _ => true
  | _ :: _, [] => false
  | p :: ps, c :: cs => (p == c) && isPreL ps cs

/-- Model of JavaScript String.prototype.includes on character lists. -/
def containsList (hay needle : List Char) : Bool :=
  match hay with
  | [] => needle.isEmpty
  | _ :: t => isPreL needle hay || containsList t needle

/-- Lowercase a character list, modelling String.prototype.toLowerCase for
the ASCII inputs considered here. -/
def lowerL (l : List Char) : List Char := l.map Char.toLower

/-- String wrapper for isPreL, modelling url.startsWith(pat). -/
def strStarts (s pat : String) : Bool := isPreL pat.data s.data

/-- String wrapper for containsList, modelling s.includes(pat). -/
def containsStr (s pat : String) : Bool := containsList s.data pat.data

/-- Case-insensitive containment, modelling
s.toLowerCase().includes(pat.toLowerCase()). -/
def containsCI (s pat : String) : Bool :=
  containsList (lowerL s.data) (lowerL pat.data)

/-- Trim ASCII whitespace from both ends of a character list, modelling
String.prototype.trim for the inputs considered here. -/
def trimL (l : List Char) : List Char :=
  ((l.dropWhile isSpaceChar).reverse.dropWhile isSpaceChar).reverse

/-- First-seen-order deduplication, modelling the iteration order of a
JavaScript Set built by repeated add calls. -/
def dedupList {α : Type} [DecidableEq α] (l : List α) : List α :=
  l.foldl (fun acc a => if a ∈ acc then acc else acc ++ [a]) []

/-! ## URL model

A minimal model of the WHATWG URL constructor restricted to the http and
https URLs and the root-relative and path-relative references that the
scraping code feeds it.  Userinfo, query and fragment components, dot
segment normalization and non-http schemes are outside the modelled
subset; on inputs outside the subset the model returns none, matching
the try/catch fallback of every caller. -/

/-- Parsed components of an absolute http or https URL. -/
structure UrlParts where
  scheme : String
  authority : String
  host : String
  path : String
deriving DecidableEq

/-- Parse an absolute http or https URL into its components; none models
the URL constructor throwing. -/
def parseAbs (s : String) : Option UrlParts :=
  let l := s.data
  let core : Option (String × List Char) :=
    if isPreL "http://".data l then some ("http:", l.drop 7)
    else if isPreL "https://".data l then some ("https:", l.drop 8)
    else none
  match core with
  | none => none
  | some (scheme, rest) =>
    let auth := rest.takeWhile (fun c => !(c == '/' || c == '?' || c == '#'))
    if auth.isEmpty then none
    else
      some { scheme := scheme
             authority := String.mk auth
             host := String.mk (auth.takeWhile (fun c => !(c == ':')))
             path := String.mk (rest.drop auth.length) }

/-- Serialized form of an absolute URL, modelling the href property. -/
def hrefAbs (s : String) : Option String :=
  (parseAbs s).map (fun u =>
    u.scheme ++ "//" ++ u.authority ++ (if u.path.data.isEmpty then "/" else u.path))

/-- Protocol of a URL including the trailing colon, modelling the
protocol property of a parsed URL. -/
def urlProtocol (s : String) : Option String :=
  (parseAbs s).map (fun u => u.scheme)

/-- Directory part of a path: everything up to and including the last
slash, defaulting to a single slash. -/
def dirOf (path : String) : String :=
  let r := path.data.reverse.dropWhile (fun c => !(c == '/'))
  if r.isEmpty then "/" else String.mk r.reverse

/-- Model of new URL(rel, base).href for the subset exercised by the
scraping code: absolute http or https references, protocol-relative
references, root-relative paths and path-relative references. -/
def urlHref (base rel : String) : Option String :=
  if strStarts rel "http://" || strStarts rel "https://" then hrefAbs rel
  else if strStarts rel "//" then (urlProtocol base).bind (fun p => hrefAbs (p ++ rel))
  else if strStarts rel "/" then
    (parseAbs base).map (fun u => u.scheme ++ "//" ++ u.authority ++ rel)
  else
    (parseAbs base).map (fun u => u.scheme ++ "//" ++ u.authority ++ dirOf u.path ++ rel)

/-! ## URL resolver variants

The repository contains several near-duplicate resolveUrl helpers that
differ in how they treat data URIs and how they shortcut absolute URLs.
Each variant below is translated from one source definition. -/

/-- Translation of resolveUrl in the puppeteer scraper (src/api/scrape.ts)
and in the scraping-bee router (src/unnamed/part_000): data URIs are
suppressed to the empty string. -/
def resolveUrl (base url : String) : String :=
  if url.data.isEmpty then ""
  else if strStarts url "data:" then ""
  else if strStarts url "http://" || strStarts url "https://" then url
  else if strStarts url "//" then
    match urlProtocol base with
    | some p => p ++ url
    | none => ""
  else (urlHref base url).getD ""

/-- Translation of resolveUrl in the edge image-metadata extractor
(src/unnamed/part_001): data URIs are returned as-is. -/
def resolveUrlKeepData (base url : String) : String :=
  if url.data.isEmpty then ""
  else if strStarts url "data:" then url
  else if strStarts url "http://" || strStarts url "https://" then url
  else if strStarts url "//" then
    match urlProtocol base with
    | some p => p ++ url
    | none => ""
  else (urlHref base url).getD ""

/-- Translation of resolveUrl in the scraping-bee snippet handlers
(src/unnamed/part_004 first handler, src/unnamed/part_007): the absolute
shortcut tests startsWith http only, and data URIs are suppressed. -/
def resolveUrlBee (base url : String) : String :=
  if url.data.isEmpty then ""
  else if strStarts url "data:" then ""
  else if strStarts url "http" then url
  else if strStarts url "//" then
    match urlProtocol base with
    | some p => p ++ url
    | none => ""
  else (urlHref base url).getD ""

/-- Translation of resolveUrl in the enhanced-logo-detection edge handler
(src/unnamed/part_002): data URIs are returned as-is and everything else
goes straight to the URL constructor. -/
def resolveUrlV2 (base url : String) : String :=
  if url.data.isEmpty then ""
  else if strStarts url "data:" then url
  else (urlHref base url).getD ""

/-- Translation of the logo resolution call-site of the
enhanced-logo-detection handler: the raw src attribute of the first
logo-like image is resolved only when truthy. -/
def resolvedLogoV2 (base : String) (srcAttr : Option String) : String :=
  match srcAttr with
  | some s => if s.data.isEmpty then "" else resolveUrlV2 base s
  | none => ""

/-! ## Fetch escalation controller

Translation of the three-tier scraping-bee escalation chain of
src/unnamed/part_000 and src/unnamed/part_006: a plain fetch, a retry
with a premium proxy when the response is not ok, and a retry with
JavaScript rendering when the second response is not ok either.  A tier
response is modelled by its HTTP status and body; the ok test is the
fetch Response.ok property. -/

/-- HTTP response as seen by the escalation chain. -/
structure HttpResponse where
  status : Nat
  body : String
deriving DecidableEq

/-- Model of the Response.ok property: status in the 2xx range. -/
def respOk (r : HttpResponse) : Bool := 200 ≤ r.status && r.status ≤ 299

/-- Outcome of the escalation chain: how many remote fetch calls were
made and which response the chain stopped on. -/
structure EscalationRun where
  fetchCount : Nat
  final : HttpResponse
deriving DecidableEq

/-- Translation of the escalation control flow: tier 1 is fetched only
when tier 0 is not ok, tier 2 only when tier 1 is not ok as well; the
body of the response the chain stops on becomes the html text. -/
def runEscalation (t0 t1 t2 : HttpResponse) : EscalationRun :=
  if respOk t0 then { fetchCount := 1, final := t0 }
  else if respOk t1 then { fetchCount := 2, final := t1 }
  else { fetchCount := 3, final := t2 }

/-- Translation of the document production after the chain: the body of
the final response when it is ok, otherwise the thrown terminal error
message carrying the final status and body. -/
def escalationDocument (t0 t1 t2 : HttpResponse) : Except String String :=
  let r := runEscalation t0 t1 t2
  if respOk r.final then Except.ok r.final.body
  else Except.error ("ScrapingBee API failed: " ++ toString r.final.status ++ " - " ++ r.final.body)

/-- Modelled from the spec: the bot-challenge signature detection the
specification describes (substring matching on a known interstitial
phrase such as checking your browser).  No such detection exists in the
source; this definition exists only to compare the specified failure
rule with the implemented one. -/
def specChallengeSignature (body : String) : Bool :=
  containsCI body "checking your browser"

/-! ## CSS value extraction

Model of the unanchored JavaScript regexes of the form
property-name colon backslash-s-star capture-of-non-semicolons used
throughout the repository, including their backtracking behaviour: at a
candidate position the whitespace run is consumed greedily, and when
nothing capturable follows, the engine backs off inside the whitespace
run so that a single whitespace character is captured instead; only when
the remainder is empty or starts with a semicolon does the position fail
and the scan move one character to the right. -/

/-- Value captured at one candidate position, or none when the position
fails and the regex engine moves on. -/
def captureValue (s : List Char) : Option String :=
  match s with
  | [] => none
  | c :: _ =>
    if c == ';' then none
    else
      let t := s.dropWhile isSpaceChar
      if t.isEmpty then some " "
      else match t with
        | ';' :: _ => some " "
        | _ => some (String.mk (t.takeWhile (fun d => !(d == ';'))))

/-- Scan of the subject string trying each alternative pattern at each
position from the left, case-insensitively, returning the first captured
value. -/
def jsRegexScan (s : List Char) (alts : List (List Char)) : Option String :=
  match s with
  | [] => none
  | _ :: t =>
    match alts.findSome? (fun p =>
      if isPreL (lowerL p) (lowerL s) then captureValue (s.drop p.length) else none) with
    | some v => some v
    | none => jsRegexScan t alts

/-- Model of style.match over an unanchored case-insensitive regex
property colon whitespace capture, returning the captured group. -/
def cssMatchValue (style prop : String) : Option String :=
  jsRegexScan style.data [(prop ++ ":").data]

/-- Translation of extractCssValue of src/unnamed/part_001: the captured
group is trimmed, and absence yields the empty string. -/
def extractCssValue (style property : String) : String :=
  match cssMatchValue style property with
  | some v => String.mk (trimL v.data)
  | none => ""

/-! ## Button style records -/

/-- Button style record produced by the extraction pipelines. -/
structure ButtonStyle where
  backgroundColor : String
  color : String
  padding : String
  borderRadius : String
deriving DecidableEq

/-- Translation of the button style construction of the local express
route (src/src/api/scrape.ts): each field is extracted from the inline
style attribute by an unanchored regex and falls back to the documented
default when the regex finds no match. -/
def mkButtonStyle (style : String) : ButtonStyle :=
  { backgroundColor := (cssMatchValue style "background-color").getD "#4F46E5"
    color := (cssMatchValue style "color").getD "#FFFFFF"
    padding := (cssMatchValue style "padding").getD "0.75rem 1.5rem"
    borderRadius := (cssMatchValue style "border-radius").getD "0.375rem" }

/-- Translation of the buttonStyles assembly of the local express route:
styles are collected in document order and deduplicated by the JSON
serialization of the full record, which coincides with full-field
equality of the record. -/
def buttonStylesRegex (styleAttrs : List String) : List ButtonStyle :=
  dedupList (styleAttrs.map mkButtonStyle)

/-! ## Declaration-block parsing, modelling the cheerio css accessor

The scraping-bee router (src/unnamed/part_000) reads inline styles
through the cheerio css accessor, which parses the style attribute into
declarations separated by semicolons, each declaration being a property
name and a value separated by the first colon, both trimmed; later
declarations of the same property overwrite earlier ones. -/

/-- Split a character list on a separator character. -/
def splitOnChar (sep : Char) : List Char → List (List Char)
  | [] => [[]]
  | a :: rest =>
    let r := splitOnChar sep rest
    if a == sep then [] :: r
    else
      match r with
      | h :: t => (a :: h) :: t
      | [] => [[a]]

/-- Split a character list at the first occurrence of a separator. -/
def splitFirst (sep : Char) : List Char → Option (List Char × List Char)
  | [] => none
  | a :: rest =>
    if a == sep then some ([], rest)
    else (splitFirst sep rest).map (fun p => (a :: p.1, p.2))

/-- Parse a style attribute into trimmed name and value pairs. -/
def parseDecls (style : String) : List (String × String) :=
  (splitOnChar ';' style.data).filterMap (fun d =>
    (splitFirst ':' d).map (fun p => (String.mk (trimL p.1), String.mk (trimL p.2))))

/-- Model of the cheerio css accessor for one property: the value of the
last declaration of that property, if any. -/
def cssProp (style prop : String) : Option String :=
  ((parseDecls style).reverse.find? (fun d => d.1 == prop)).map (fun d => d.2)

/-- Coalescing with a default that also replaces the empty string,
modelling the JavaScript or-default idiom on a possibly empty value. -/
def orDefault (v : Option String) (d : String) : String :=
  match v with
  | some s => if s.data.isEmpty then d else s
  | none => d

/-- Translation of the button style construction of the scraping-bee
router (src/unnamed/part_000), which reads each property through the
cheerio css accessor. -/
def mkButtonStyleCheerio (style : String) : ButtonStyle :=
  { backgroundColor := orDefault (cssProp style "background-color") "#4F46E5"
    color := orDefault (cssProp style "color") "#FFFFFF"
    padding := orDefault (cssProp style "padding") "0.75rem 1.5rem"
    borderRadius := orDefault (cssProp style "border-radius") "0.375rem" }

/-- Translation of the buttonStyles assembly of the scraping-bee router:
first-seen order with deduplication by the JSON key of the full record. -/
def buttonStylesCheerio (styleAttrs : List String) : List ButtonStyle :=
  dedupList (styleAttrs.map mkButtonStyleCheerio)

/-! ## Color harvesting (local express route, src/src/api/scrape.ts) -/

/-- Guarded insertion of one regex capture into the color accumulator:
the value is appended when it is truthy and differs from the literal
string transparent. -/
def addColor (acc : List String) (v : Option String) : List String :=
  match v with
  | some c => if !c.data.isEmpty && !(c == "transparent") then acc ++ [c] else acc
  | none => acc

/-- Translation of the colors extraction of the local express route:
elements whose style attribute mentions color or background are scanned
with the two unanchored regexes, the captures are filtered against the
literal transparent, inserted in document order and deduplicated. -/
def colorsOf (styleAttrs : List String) : List String :=
  let selected := styleAttrs.filter (fun s => containsStr s "color" || containsStr s "background")
  dedupList (selected.foldl
    (fun acc s =>
      addColor (addColor acc (cssMatchValue s "color"))
        (jsRegexScan s.data ["background-color:".data, "background:".data]))
    [])

/-! ## Image list assembly (puppeteer scraper, src/api/scrape.ts) -/

/-- Translation of imgTagImages: each img src attribute is resolved when
truthy and falsy entries are filtered out. -/
def imgTagImages (base : String) (srcs : List String) : List String :=
  (srcs.map (fun s => if s.data.isEmpty then "" else resolveUrl base s)).filter
    (fun s => !s.data.isEmpty)

/-- Translation of the images assembly: resolved img tag sources are
concatenated with the raw background-image URLs harvested from computed
styles, then deduplicated preserving first-seen order. -/
def imagesOf (base : String) (srcs bgRaw : List String) : List String :=
  dedupList (imgTagImages base srcs ++ bgRaw)

/-! ## Logo disambiguation (puppeteer scraper, src/api/scrape.ts) -/

/-- Hostname of an absolute URL; none models the URL constructor
throwing on a non-absolute string. -/
def hostnameOf (s : String) : Option String := (parseAbs s).map (fun u => u.host)

/-- Translation of the domain candidate test: the candidate resolves to
a URL whose hostname equals the page hostname, with a thrown parse error
counting as no match. -/
def hostMatches (base domain src : String) : Bool :=
  match hostnameOf (resolveUrl base src) with
  | some h => h == domain
  | none => false

/-- Translation of the logo selection of the puppeteer scraper: first
the first candidate whose resolved hostname equals the page hostname;
otherwise, when a non-empty brand hint is supplied, the first candidate
containing it case-insensitively; otherwise the first candidate; the
chosen raw reference is resolved at the end, and no candidates yield the
empty string. -/
def selectLogo (base domain : String) (brand : Option String) (cands : List String) : String :=
  match cands.find? (fun src => hostMatches base domain src) with
  | some c => resolveUrl base c
  | none =>
    let l1 : String :=
      match brand with
      | some b =>
        if b.data.isEmpty then ""
        else
          match (cands.filter (fun s => containsCI s b)).head? with
          | some c => c
          | none => ""
      | none => ""
    let l2 : String := if l1.data.isEmpty then (cands.head?).getD "" else l1
    resolveUrl base l2

/-- Modelled from the spec: the strict priority chain of section 4.5 of
the specification, written directly from its words for the refinement
comparison with selectLogo.  A brand hint that is the empty string
counts as not supplied. -/
def selectLogoSpec (base domain : String) (brand : Option String) (cands : List String) : String :=
  match cands.find? (fun src => hostMatches base domain src) with
  | some c => resolveUrl base c
  | none =>
    match brand with
    | some b =>
      if b.data.isEmpty then
        match cands.head? with
        | some c => resolveUrl base c
        | none => ""
      else
        match (cands.filter (fun s => containsCI s b)).head? with
        | some c => resolveUrl base c
        | none =>
          match cands.head? with
          | some c => resolveUrl base c
          | none => ""
    | none =>
      match cands.head? with
      | some c => resolveUrl base c
      | none => ""

/-! ## Client-side scrape wrapper (src/src/lib/scraper.ts) -/

/-- Heading style record of the token set. -/
structure HeaderStyle where
  fontSize : String
  fontWeight : String
  color : String
  fontFamily : String
deriving DecidableEq

/-- Layout metrics of the token set. -/
structure LayoutInfo where
  maxWidth : String
  containerPadding : String
  gridGap : String
deriving DecidableEq

/-- Styles block of the token set. -/
structure StylesBlock where
  spacing : List String
  borderRadius : List String
  shadows : List String
  gradients : List String
  buttonStyles : List ButtonStyle
  headerStyles : List HeaderStyle
  layout : LayoutInfo
deriving DecidableEq

/-- Shape of the assets returned to the caller of scrapeWebsite. -/
structure ScrapedAssets where
  colors : List String
  fonts : List String
  images : List String
  headings : List String
  logo : Option String
  styles : Option StylesBlock
deriving DecidableEq

/-- Raw JSON payload of the scraping API as seen by scrapeWebsite: each
field is present as its expected shape or not usable, modelling the
Array.isArray and truthiness guards of the source. -/
structure RawData where
  colors : Option (List String)
  fonts : Option (List String)
  images : Option (List String)
  headings : Option (List String)
  logo : Option String
  styles : Option StylesBlock
deriving DecidableEq

/-- Translation of the processedData construction: arrays are kept when
well-shaped and default to empty, a falsy logo becomes undefined, and a
missing styles object is replaced by the inline default block. -/
def processData (d : RawData) : ScrapedAssets :=
  { colors := d.colors.getD []
    fonts := d.fonts.getD []
    images := d.images.getD []
    headings := d.headings.getD []
    logo := match d.logo with
      | some s => if s.data.isEmpty then none else some s
      | none => none
    styles := some (d.styles.getD
      { spacing := [], borderRadius := [], shadows := [], gradients := []
        buttonStyles := [], headerStyles := []
        layout := { maxWidth := "1200px", containerPadding := "1rem", gridGap := "1rem" } }) }

/-- Outcome of the fetch to the scraping API as seen by scrapeWebsite:
a thrown network error, a non-ok response, malformed response data, or a
usable JSON payload. -/
inductive ApiOutcome where
  | netError (msg : String)
  | httpError (status : Nat) (body : String)
  | badJson
  | okData (d : RawData)

/-- Translation of the body of the try block of scrapeWebsite: each
terminal failure raises the corresponding error, a usable payload is
processed into assets. -/
def scrapeWebsiteCore (o : ApiOutcome) : Except String ScrapedAssets :=
  match o with
  | .netError m => .error m
  | .httpError s b => .error ("Failed to scrape URL: " ++ toString s ++ " - " ++ b)
  | .badJson => .error "Invalid response data received from scraping API"
  | .okData d => .ok (processData d)

/-- Translation of getFallbackAssets: the fixed hardcoded token set
returned whenever the scrape pipeline terminally fails. -/
def getFallbackAssets : ScrapedAssets :=
  { colors := ["#1a1a1a", "#ffffff", "#3b82f6"]
    fonts := ["system-ui", "-apple-system", "sans-serif"]
    images :=
      ["https://images.unsplash.com/photo-1606857521015-7f9fcf423740?w=1200&q=80",
       "https://images.unsplash.com/photo-1618005182384-a83a8bd57fbe?w=1200&q=80",
       "https://images.unsplash.com/photo-1551434678-e076c223a692?w=1200&q=80"]
    headings := []
    logo := none
    styles := some
      { spacing := ["0.5rem", "1rem", "1.5rem", "2rem"]
        borderRadius := ["0.25rem", "0.5rem", "0.75rem"]
        shadows := ["0 1px 3px rgba(0,0,0,0.1)"]
        gradients := []
        buttonStyles :=
          [{ backgroundColor := "#4F46E5", color := "#FFFFFF"
             padding := "0.75rem 1.5rem", borderRadius := "0.375rem" }]
        headerStyles :=
          [{ fontSize := "2.25rem", fontWeight := "700"
             color := "#1F2937", fontFamily := "system-ui" }]
        layout := { maxWidth := "1200px", containerPadding := "2rem", gridGap := "2rem" } } }

/-- Translation of scrapeWebsite: the try block result is returned on
success, and every caught error is replaced by the fallback assets. -/
def scrapeWebsite (o : ApiOutcome) : ScrapedAssets :=
  match scrapeWebsiteCore o with
  | .ok a => a
  | .error _ => getFallbackAssets

/-- Outcome classifier used to state the fallback theorem: every
outcome other than a usable payload is a terminal failure of the
pipeline. -/
def isTerminalFailure (o : ApiOutcome) : Bool :=
  match o with
  | .okData _ => false
  | _ => true

/-! ## Helper lemmas -/

/-- A list with a non-empty prefix is non-empty. -/
theorem isPreL_ne_nil {a : Char} {p l : List Char} (h : isPreL (a :: p) l = true) :
    l.isEmpty = false := by
  cases l with
  | nil => simp [isPreL] at h
  | cons c cs => rfl

/-- Two candidate prefixes with different head characters cannot both
match the same list. -/
theorem isPreL_head_ne {a b : Char} {p q l : List Char} (hne : (b == a) = false)
    (h : isPreL (a :: p) l = true) : isPreL (b :: q) l = false := by
  cases l with
  | nil => simp [isPreL] at h
  | cons c cs =>
    have hac : (a == c) = true := by
      have h2 := h
      simp only [isPreL, Bool.and_eq_true] at h2
      exact h2.1
    have hac2 : a = c := eq_of_beq hac
    subst hac2
    simp [isPreL, hne]

/-- A prefix of a matching prefix also matches. -/
theorem isPreL_append_left {p q l : List Char} (h : isPreL (p ++ q) l = true) :
    isPreL p l = true := by
  induction p generalizing l with
  | nil => rfl
  | cons a ps ih =>
    cases l with
    | nil => simp [isPreL] at h
    | cons c cs =>
      simp only [List.cons_append, isPreL, Bool.and_eq_true] at h ⊢
      exact ⟨h.1, ih h.2⟩

/-- Membership in the first-seen-order deduplication of a list with an
arbitrary accumulator. -/
theorem mem_foldl_dedup {α : Type} [DecidableEq α] {x : α} :
    ∀ (l acc : List α),
      x ∈ l.foldl (fun acc a => if a ∈ acc then acc else acc ++ [a]) acc →
      x ∈ acc ∨ x ∈ l := by
  intro l
  induction l with
  | nil => intro acc h; exact Or.inl h
  | cons a t ih =>
    intro acc h
    simp only [List.foldl] at h
    rcases ih _ h with h1 | h1
    · by_cases ha : a ∈ acc
      · rw [if_pos ha] at h1; exact Or.inl h1
      · rw [if_neg ha] at h1
        rcases List.mem_append.mp h1 with h2 | h2
        · exact Or.inl h2
        · exact Or.inr (List.mem_cons.mpr (Or.inl (List.mem_singleton.mp h2)))
    · exact Or.inr (List.mem_cons_of_mem _ h1)

/-- Membership in a deduplicated list implies membership in the
original. -/
theorem mem_dedupList {α : Type} [DecidableEq α] {x : α} {l : List α}
    (h : x ∈ dedupList l) : x ∈ l := by
  rcases mem_foldl_dedup l [] h with h1 | h1
  · cases h1
  · exact h1

/-- The head of a filtered list satisfies the filtering predicate. -/
theorem head_of_filter_sat {α : Type} {p : α → Bool} {l : List α} {c : α}
    (h : (l.filter p).head? = some c) : p c = true := by
  cases hfl : l.filter p with
  | nil => rw [hfl] at h; cases h
  | cons x xs =>
    rw [hfl] at h
    have hx : x = c := by simpa using h
    subst hx
    have hmem : x ∈ l.filter p := by rw [hfl]; exact List.mem_cons_self _ _
    exact List.of_mem_filter hmem

/-- A string that case-insensitively contains a non-empty string is
itself non-empty. -/
theorem containsCI_ne_empty {c b : String} (hb : b.data.isEmpty = false)
    (h : containsCI c b = true) : c.data.isEmpty = false := by
  cases hcd : c.data with
  | cons x xs => rfl
  | nil =>
    exfalso
    cases hbd : b.data with
    | nil => rw [hbd] at hb; simp at hb
    | cons y ys =>
      have hfalse : containsCI c b = false := by
        unfold containsCI containsList lowerL
        rw [hcd, hbd]
        simp
      rw [hfalse] at h
      exact Bool.noConfusion h

/-- Colors guarded insertion never inserts the literal transparent. -/
theorem transparent_not_in_addColor {acc : List String} {v : Option String}
    (h : "transparent" ∉ acc) : "transparent" ∉ addColor acc v := by
  unfold addColor
  cases v with
  | none => exact h
  | some c =>
    show "transparent" ∉ (if (!c.data.isEmpty && !(c == "transparent")) = true then acc ++ [c] else acc)
    by_cases hguard : (!c.data.isEmpty && !(c == "transparent")) = true
    · rw [if_pos hguard]
      intro hmem
      rcases List.mem_append.mp hmem with h1 | h1
      · exact h h1
      · have hc : "transparent" = c := List.mem_singleton.mp h1
        rw [Bool.and_eq_true] at hguard
        have hcb : (c == "transparent") = false := by
          cases hcb2 : (c == "transparent") with
          | false => rfl
          | true => rw [hcb2] at hguard; simp at hguard
        rw [← hc] at hcb
        simp at hcb
    · rw [if_neg hguard]
      exact h

/-- The color collection fold never accumulates the literal
transparent. -/
theorem transparent_not_in_collect :
    ∀ (l acc : List String), "transparent" ∉ acc →
      "transparent" ∉ l.foldl (fun acc s =>
        addColor (addColor acc (cssMatchValue s "color"))
          (jsRegexScan s.data ["background-color:".data, "background:".data])) acc := by
  intro l
  induction l with
  | nil => intro acc h; exact h
  | cons s t ih =>
    intro acc h
    exact ih _ (transparent_not_in_addColor (transparent_not_in_addColor h))

/-! ## Claim theorems -/

/-- C1: fetch escalation halts at the first successful tier.  Whenever
tier 0 yields a non-2xx response and tier 1 yields a 2xx response,
exactly two remote fetch calls occur and the body of the tier 1 response
is the document used, whatever tier 2 would have returned. -/
theorem escalation_halts_at_first_success (t0 t1 t2 : HttpResponse)
    (h0 : respOk t0 = false) (h1 : respOk t1 = true) :
    runEscalation t0 t1 t2 = { fetchCount := 2, final := t1 } ∧
    escalationDocument t0 t1 t2 = Except.ok t1.body := by
  constructor
  · simp [runEscalation, h0, h1]
  · simp [escalationDocument, runEscalation, h0, h1]

/-- Witness for C1 at a concrete 503 then 200 run. -/
theorem escalation_halts_at_first_success_witness :
    respOk { status := 503, body := "Service Unavailable" } = false ∧
    respOk { status := 200, body := "<html>ok</html>" } = true ∧
    (runEscalation { status := 503, body := "Service Unavailable" }
        { status := 200, body := "<html>ok</html>" } { status := 200, body := "" } =
      { fetchCount := 2, final := { status := 200, body := "<html>ok</html>" } } ∧
     escalationDocument { status := 503, body := "Service Unavailable" }
        { status := 200, body := "<html>ok</html>" } { status := 200, body := "" } =
      Except.ok "<html>ok</html>") :=
  ⟨by decide, by decide,
   escalation_halts_at_first_success _ _ _ (by decide) (by decide)⟩

/-- C2 counterexample: the escalation chain never inspects the response
body, so a 2xx response whose body carries a bot-challenge signature is
accepted after a single fetch and its interstitial body becomes the
document, refuting the claim that such a body is never accepted. -/
theorem challenge_body_accepted_cex :
    specChallengeSignature "Checking your browser before accessing example.com" = true ∧
    runEscalation { status := 200, body := "Checking your browser before accessing example.com" }
        { status := 200, body := "real content" } { status := 200, body := "real content" } =
      { fetchCount := 1,
        final := { status := 200, body := "Checking your browser before accessing example.com" } } ∧
    escalationDocument { status := 200, body := "Checking your browser before accessing example.com" }
        { status := 200, body := "real content" } { status := 200, body := "real content" } =
      Except.ok "Checking your browser before accessing example.com" :=
  ⟨by decide, by decide, rfl⟩

/-- C2 amended: a tier counts as failed exactly when its HTTP status is
outside the 2xx range; the body is never inspected, so any 2xx first
response, including one carrying a bot-challenge signature, stops the
escalation after one fetch and its body is used. -/
theorem tier_failure_is_status_only (t0 t1 t2 : HttpResponse)
    (h : respOk t0 = true) :
    runEscalation t0 t1 t2 = { fetchCount := 1, final := t0 } ∧
    escalationDocument t0 t1 t2 = Except.ok t0.body := by
  constructor
  · simp [runEscalation, h]
  · simp [escalationDocument, runEscalation, h]

/-- Witness for the amended C2 at a concrete 200 response whose body is
an interstitial phrase. -/
theorem tier_failure_is_status_only_witness :
    respOk { status := 200, body := "Checking your browser before accessing example.com" } = true ∧
    (runEscalation { status := 200, body := "Checking your browser before accessing example.com" }
        { status := 404, body := "" } { status := 404, body := "" } =
      { fetchCount := 1,
        final := { status := 200, body := "Checking your browser before accessing example.com" } } ∧
     escalationDocument { status := 200, body := "Checking your browser before accessing example.com" }
        { status := 404, body := "" } { status := 404, body := "" } =
      Except.ok "Checking your browser before accessing example.com") :=
  ⟨by decide, tier_failure_is_status_only _ _ _ (by decide)⟩

/-- C3: logo selection is the strict priority chain of the
specification: first candidate with same-host resolved hostname, else
first candidate containing the brand hint case-insensitively, else first
candidate in document order, else the empty string; and on the concrete
candidate pair of the claim the same-host candidate wins in both
orders. -/
theorem selectLogo_strict_priority_chain :
    (∀ (base domain : String) (brand : Option String) (cands : List String),
      selectLogo base domain brand cands = selectLogoSpec base domain brand cands) ∧
    selectLogo "https://example.com/" "example.com" none
      ["https://cdn.partner.com/logo.png", "/img/logo.png"] = "https://example.com/img/logo.png" ∧
    selectLogo "https://example.com/" "example.com" none
      ["/img/logo.png", "https://cdn.partner.com/logo.png"] = "https://example.com/img/logo.png" := by
  refine ⟨?_, by decide, by decide⟩
  intro base domain brand cands
  unfold selectLogo selectLogoSpec
  cases hfind : cands.find? (fun src => hostMatches base domain src) with
  | some c => rfl
  | none =>
    cases brand with
    | none =>
      cases hh : cands.head? with
      | some c => simp [hh]
      | none => simp [hh, resolveUrl]
    | some b =>
      cases hb : b.data.isEmpty with
      | true =>
        simp only [hb]
        cases hh : cands.head? with
        | some c => simp [hh]
        | none => simp [hh, resolveUrl]
      | false =>
        simp only [hb]
        cases hfil : (cands.filter (fun s => containsCI s b)).head? with
        | none =>
          simp only [hfil]
          cases hh : cands.head? with
          | some c => simp [hh]
          | none => simp [hh, resolveUrl]
        | some c =>
          have hc : containsCI c b = true :=
            head_of_filter_sat (p := fun s => containsCI s b) hfil
          have hcne : c.data.isEmpty = false := containsCI_ne_empty hb hc
          simp [hfil, hcne]

/-- C4: at the repeated buy-button scenario both extraction variants
deduplicate the three identical records to exactly one entry with the
default padding and border radius; the cheerio-based scraping-bee router
reads the declared color and yields the claimed entry, while the
unanchored regex of the local express route captures the value of
background-color for the color field, yielding a color of hash-111
instead of the claimed hash-fff. -/
theorem button_scenario_regex_vs_cheerio :
    buttonStylesRegex ["background-color:#111;color:#fff", "background-color:#111;color:#fff",
      "background-color:#111;color:#fff"] =
      [{ backgroundColor := "#111", color := "#111",
         padding := "0.75rem 1.5rem", borderRadius := "0.375rem" }] ∧
    buttonStylesCheerio ["background-color:#111;color:#fff", "background-color:#111;color:#fff",
      "background-color:#111;color:#fff"] =
      [{ backgroundColor := "#111", color := "#fff",
         padding := "0.75rem 1.5rem", borderRadius := "0.375rem" }] :=
  ⟨by decide, by decide⟩

/-- C5 counterexample: a background-image URL harvested from computed
styles is appended to the images list exactly as returned by the
renderer, without passing the URL resolver, so a relative reference
appears unresolved in the output while the img-tag source is
resolved. -/
theorem images_unresolved_background_cex :
    imagesOf "https://example.com/" ["/img/a.png"] ["/assets/bg.png"] =
      ["https://example.com/img/a.png", "/assets/bg.png"] ∧
    strStarts "/assets/bg.png" "http://" = false ∧
    strStarts "/assets/bg.png" "https://" = false := by decide

/-- C5 amended: every entry of the images output either is one of the
raw background-image URLs taken verbatim from computed styles or is the
image of an img-tag source under the URL resolver; only the img-tag
population is guaranteed to have passed the resolver. -/
theorem images_partition (base : String) (srcs bgRaw : List String) (x : String)
    (h : x ∈ imagesOf base srcs bgRaw) :
    x ∈ bgRaw ∨ ∃ s, s ∈ srcs ∧ x = resolveUrl base s := by
  have h1 : x ∈ imgTagImages base srcs ++ bgRaw := mem_dedupList h
  rcases List.mem_append.mp h1 with h2 | h2
  · right
    unfold imgTagImages at h2
    have h3 := List.mem_of_mem_filter h2
    rcases List.mem_map.mp h3 with ⟨s, hs, hxs⟩
    refine ⟨s, hs, ?_⟩
    by_cases hse : s.data.isEmpty = true
    · rw [← hxs]; simp [hse, resolveUrl]
    · rw [← hxs]; simp [hse]
  · exact Or.inl h2

/-- Witness for the amended C5 at a concrete img-tag source. -/
theorem images_partition_witness :
    ("https://example.com/img/a.png" ∈
      imagesOf "https://example.com/" ["/img/a.png"] []) ∧
    ("https://example.com/img/a.png" ∈ ([] : List String) ∨
      ∃ s, s ∈ ["/img/a.png"] ∧
        "https://example.com/img/a.png" = resolveUrl "https://example.com/" s) :=
  ⟨by decide, images_partition _ _ _ _ (by decide)⟩

/-- C6: every terminal failure of the scrape pipeline is absorbed and
replaced by the fixed hardcoded fallback token set, whose content is the
documented fallback colors, fonts, three placeholder images, one default
button style and one default heading style. -/
theorem scrape_terminal_failure_fallback (o : ApiOutcome)
    (h : isTerminalFailure o = true) :
    scrapeWebsite o = getFallbackAssets ∧
    getFallbackAssets.colors = ["#1a1a1a", "#ffffff", "#3b82f6"] ∧
    getFallbackAssets.fonts = ["system-ui", "-apple-system", "sans-serif"] ∧
    getFallbackAssets.images.length = 3 ∧
    (∃ sb, getFallbackAssets.styles = some sb ∧
      sb.buttonStyles = [ButtonStyle.mk "#4F46E5" "#FFFFFF" "0.75rem 1.5rem" "0.375rem"] ∧
      sb.headerStyles = [HeaderStyle.mk "2.25rem" "700" "#1F2937" "system-ui"]) := by
  refine ⟨?_, rfl, rfl, rfl, ⟨_, rfl, rfl, rfl⟩⟩
  cases o with
  | netError m => rfl
  | httpError s b => rfl
  | badJson => rfl
  | okData d => simp [isTerminalFailure] at h

/-- Witness for C6 at a concrete non-ok response. -/
theorem scrape_terminal_failure_fallback_witness :
    isTerminalFailure (ApiOutcome.httpError 500 "Internal Server Error") = true ∧
    scrapeWebsite (ApiOutcome.httpError 500 "Internal Server Error") = getFallbackAssets :=
  ⟨rfl, (scrape_terminal_failure_fallback (ApiOutcome.httpError 500 "Internal Server Error") rfl).1⟩

/-- C7: every candidate beginning with the http or https scheme prefix
is returned unchanged by each resolver variant of the repository that
the claim cites. -/
theorem resolve_absolute_http_unchanged (base url : String)
    (h : strStarts url "http://" = true ∨ strStarts url "https://" = true) :
    resolveUrl base url = url ∧ resolveUrlKeepData base url = url ∧
    resolveUrlBee base url = url := by
  have hex : isPreL ('h' :: "ttp://".data) url.data = true ∨
      isPreL ('h' :: "ttps://".data) url.data = true := h
  have hne : url.data.isEmpty = false := by
    rcases hex with h1 | h1
    · exact isPreL_ne_nil h1
    · exact isPreL_ne_nil h1
  have hdata : strStarts url "data:" = false := by
    show isPreL ('d' :: "ata:".data) url.data = false
    rcases hex with h1 | h1
    · exact isPreL_head_ne (by decide) h1
    · exact isPreL_head_ne (by decide) h1
  have hor : (strStarts url "http://" || strStarts url "https://") = true := by
    rcases h with h1 | h1 <;> simp [h1]
  have h4 : strStarts url "http" = true := by
    show isPreL "http".data url.data = true
    rcases h with h1 | h1
    · have e : ("http://".data : List Char) = "http".data ++ "://".data := by decide
      have h2 : isPreL ("http".data ++ "://".data) url.data = true := by
        rw [← e]; exact h1
      exact isPreL_append_left h2
    · have e : ("https://".data : List Char) = "http".data ++ "s://".data := by decide
      have h2 : isPreL ("http".data ++ "s://".data) url.data = true := by
        rw [← e]; exact h1
      exact isPreL_append_left h2
  refine ⟨?_, ?_, ?_⟩ <;>
    simp [resolveUrl, resolveUrlKeepData, resolveUrlBee, hne, hdata, hor, h4]

/-- Witness for C7 at a concrete absolute URL. -/
theorem resolve_absolute_http_unchanged_witness :
    strStarts "http://cdn.example.com/logo.png" "http://" = true ∧
    (resolveUrl "https://base.example.com/" "http://cdn.example.com/logo.png" =
        "http://cdn.example.com/logo.png" ∧
     resolveUrlKeepData "https://base.example.com/" "http://cdn.example.com/logo.png" =
        "http://cdn.example.com/logo.png" ∧
     resolveUrlBee "https://base.example.com/" "http://cdn.example.com/logo.png" =
        "http://cdn.example.com/logo.png") :=
  ⟨by decide, resolve_absolute_http_unchanged _ _ (Or.inl (by decide))⟩

/-- C8 counterexample: the logo call-site of the enhanced-logo-detection
handler resolves through the data-preserving variant, so a data URI is
returned as-is rather than suppressed to the empty string at that logo
call-site, refuting the claim that logo call sites always suppress data
URIs. -/
theorem data_uri_logo_site_cex :
    resolvedLogoV2 "https://example.com/" (some "data:image/png;base64,AAA") =
      "data:image/png;base64,AAA" ∧
    "data:image/png;base64,AAA" ≠ "" := by decide

/-- C8 amended: the handling of data URIs is fixed per resolver variant,
not per context: the image-metadata extractor variant returns the URI
as-is, the puppeteer and scraping-bee variants suppress it to the empty
string, and the enhanced-logo-detection variant returns it as-is even at
its logo call-site. -/
theorem data_uri_per_variant (base s : String) (h : strStarts s "data:" = true) :
    resolveUrlKeepData base s = s ∧ resolveUrl base s = "" ∧
    resolveUrlBee base s = "" ∧ resolveUrlV2 base s = s := by
  have hex : isPreL ('d' :: "ata:".data) s.data = true := h
  have hne : s.data.isEmpty = false := isPreL_ne_nil hex
  refine ⟨?_, ?_, ?_, ?_⟩ <;>
    simp [resolveUrlKeepData, resolveUrl, resolveUrlBee, resolveUrlV2, hne, h]

/-- Witness for the amended C8 at a concrete data URI. -/
theorem data_uri_per_variant_witness :
    strStarts "data:image/png;base64,AAA" "data:" = true ∧
    (resolveUrlKeepData "https://example.com/" "data:image/png;base64,AAA" =
        "data:image/png;base64,AAA" ∧
     resolveUrl "https://example.com/" "data:image/png;base64,AAA" = "" ∧
     resolveUrlBee "https://example.com/" "data:image/png;base64,AAA" = "" ∧
     resolveUrlV2 "https://example.com/" "data:image/png;base64,AAA" =
        "data:image/png;base64,AAA") :=
  ⟨by decide, data_uri_per_variant _ _ (by decide)⟩

/-- C9 counterexample: a document whose inline styles declare an inherit
color and a fully transparent rgba background produces a colors output
containing both values, refuting the claimed exclusion. -/
theorem colors_inherit_and_alpha_included_cex :
    colorsOf ["color: inherit", "background-color: rgba(0, 0, 0, 0)"] =
      ["inherit", "rgba(0, 0, 0, 0)"] ∧
    "inherit" ∈ colorsOf ["color: inherit", "background-color: rgba(0, 0, 0, 0)"] ∧
    "rgba(0, 0, 0, 0)" ∈ colorsOf ["color: inherit", "background-color: rgba(0, 0, 0, 0)"] :=
  ⟨by decide, by decide, by decide⟩

/-- C9 amended: for every input the colors output excludes the literal
value transparent, but values equal to inherit or to fully transparent
rgba forms are not filtered and appear when present. -/
theorem colors_exclude_literal_transparent (styleAttrs : List String) :
    (colorsOf styleAttrs).count "transparent" = 0 := by
  rw [List.count_eq_zero]
  intro hmem
  exact transparent_not_in_collect _ [] (by simp) (mem_dedupList hmem)

/-- C10: the CSS value extractor matches the requested property name as
an unanchored substring, so on a declaration block holding only
background-color it returns the background-color value for the requested
property color instead of the empty string. -/
theorem extractCssValue_unanchored_substring :
    extractCssValue "background-color: red" "color" = "red" ∧
    extractCssValue "background-color: red" "color" ≠ "" := by decide

end LPG
